import Mathlib

/-!
Verification development for the nest-responses-generator repository.

The definitions below are a shallow embedding of the repository's
TypeScript source:

* `ServiceResponseGenerator` (src/unnamed/part_002): the return-shape
  analyzer (`extractReturnType`, `analyzeTypeNode`, `handleKnownType`,
  `analyzeExpression`, `findReturnStatements`), the declaration emitter
  (`generateResponseClass`, `generateProperty`, `generateExample`,
  `mapTypeToSwagger`, `mapTypeToTypescript`, `generateResponseObject`)
  and the per-file orchestration (`analyzeServiceFile`, `generate`).
* `DecoratorGenerator` (src/unnamed/part_001): the endpoint scanner's
  array-ness classifier `isArrayMethod`.
* The plugin's string-based rewriter
  (src/packages/plugin/src/apply-transformations.ts):
  `transformControllerFile` and its helpers, and its `isArrayMethod`.
* The plugin's AST-based transformer
  (src/packages/plugin/src/response-transformer.ts): its `isArrayMethod`.

TypeScript AST values are modelled by explicit inductive types
(`TypeNode`, `Expr`, `SNode`); the TypeScript parser itself is external
infrastructure, so functions that in the source read an AST obtained
from `ts.createSourceFile` here take the parsed data as an argument.
JavaScript strings are Lean `String`s; the concrete regular expressions
used by the source are implemented directly over character lists.
-/

/-! ## String helpers (JavaScript string primitives used by the source) -/

/-- List-level prefix test (used to model `String.startsWith` and as the
basic building block of substring search). -/
def isPrefixOfL : List Char → List Char → Bool
  | [], _ => true
  | _ :: _, [] => false
  | a :: as, b :: bs => a == b && isPrefixOfL as bs

/-- List-level substring test, modelling JavaScript `String.includes`. -/
def containsSubL (needle : List Char) : List Char → Bool
  | [] => isPrefixOfL needle []
  | l@(_ :: rest) => isPrefixOfL needle l || containsSubL needle rest

/-- `containsSub hay needle` models JavaScript `hay.includes(needle)`. -/
def containsSub (hay needle : String) : Bool :=
  containsSubL needle.data hay.data

/-- Number of positions of `l` at which `needle` occurs. -/
def countSubL (needle : List Char) : List Char → Nat
  | [] => if isPrefixOfL needle [] then 1 else 0
  | l@(_ :: rest) => (if isPrefixOfL needle l then 1 else 0) + countSubL needle rest

/-- `countSub hay needle`: number of occurrences of `needle` in `hay`. -/
def countSub (hay needle : String) : Nat :=
  countSubL needle.data hay.data

/-- Models JavaScript `s.startsWith(pre)`. -/
def startsWithS (s pre : String) : Bool :=
  isPrefixOfL pre.data s.data

/-- Models JavaScript `s.endsWith(suffix)`. -/
def endsWithS (s suf : String) : Bool :=
  isPrefixOfL suf.data.reverse s.data.reverse

/-- Models JavaScript `s.toLowerCase()` (ASCII, which is all the source
compares). -/
def toLowerS (s : String) : String :=
  String.mk (s.data.map Char.toLower)

/-- Models JavaScript `Array.prototype.join(sep)`. -/
def joinSep (sep : String) : List String → String
  | [] => ""
  | [x] => x
  | x :: xs => x ++ sep ++ joinSep sep xs

/-- List-level first-occurrence replacement. -/
def replaceFirstL (pat repl : List Char) : List Char → List Char
  | [] => []
  | c :: rest =>
      if isPrefixOfL pat (c :: rest) then repl ++ List.drop pat.length (c :: rest)
      else c :: replaceFirstL pat repl rest

/-- Models JavaScript `s.replace(pat, repl)` with a plain-string pattern
(replaces the first occurrence only). -/
def replaceFirstS (s pat repl : String) : String :=
  if pat.data.isEmpty then String.mk (repl.data ++ s.data)
  else String.mk (replaceFirstL pat.data repl.data s.data)

/-- Models `str.charAt(0).toUpperCase() + str.slice(1)`
(`capitalize` in part_001 l.339 and part_002 l.605). -/
def capitalize (s : String) : String :=
  match s.data with
  | [] => ""
  | c :: rest => String.mk (Char.toUpper c :: rest)

/-! ## Shape model (`TypeAnalysis`, part_002 l.44-49)

The source's `TypeAnalysis` record has a `type` discriminator with the
optional fields `properties`, `elementType`, `primitiveType`; exactly one
of the four variants below is ever constructed. -/

inductive TypeAnalysis where
  | object (properties : List (String × TypeAnalysis))
  | array (elementType : TypeAnalysis)
  | primitive (primitiveType : String)
  | unknown

/-- `a.isUnknownKind` models the source's `a.type === 'unknown'` check. -/
def TypeAnalysis.isUnknownKind : TypeAnalysis → Bool
  | .unknown => true
  | _ => false

/-- `type.primitiveType || 'any'`: only the `primitive` variant carries a
`primitiveType` field. -/
def primitiveTypeOrAny : TypeAnalysis → String
  | .primitive t => t
  | _ => "any"

/-- JavaScript `Record` assignment `m[k] = v`: an existing key keeps its
original position and gets the new value; a new key is appended. -/
def recordInsert : List (String × TypeAnalysis) → String → TypeAnalysis →
    List (String × TypeAnalysis)
  | [], k, v => [(k, v)]
  | (k', v') :: rest, k, v =>
      if k' = k then (k, v) :: rest else (k', v') :: recordInsert rest k v

/-! ## Type annotation nodes and `analyzeTypeNode` (part_002 l.189-246)

`TypeNode` models the `ts.TypeNode` kinds the source discriminates:
array types, type literals (member lists with optional member types,
split into two cons forms to avoid a nested `Option`), type references
with type-argument lists, and the keyword tokens. -/

mutual
inductive TypeNode where
  | arrayType (elementType : TypeNode)
  | typeLiteral (members : TMembers)
  | typeRef (name : String) (args : TArgs)
  | strKeyword
  | numKeyword
  | boolKeyword
  | otherToken
inductive TMembers where
  | nil
  | consTyped (name : String) (ty : TypeNode) (rest : TMembers)
  | consUntyped (name : String) (rest : TMembers)
inductive TArgs where
  | nil
  | cons (t : TypeNode) (rest : TArgs)
end

/-- Fixed registry shape for `User` (part_002 l.259-270). -/
def userShape : TypeAnalysis :=
  .object [("id", .primitive "number"), ("firstname", .primitive "string"),
           ("lastname", .primitive "string"), ("email", .primitive "string"),
           ("role", .primitive "string")]

/-- Fixed registry shape for `CreateUserDto` (part_002 l.272-283). -/
def createUserDtoShape : TypeAnalysis :=
  .object [("firstname", .primitive "string"), ("lastname", .primitive "string"),
           ("email", .primitive "string"), ("password", .primitive "string"),
           ("role", .primitive "string")]

/-- Fixed registry shape for `UpdateUserDto` (part_002 l.285-295). -/
def updateUserDtoShape : TypeAnalysis :=
  .object [("firstname", .primitive "string"), ("lastname", .primitive "string"),
           ("email", .primitive "string"), ("role", .primitive "string")]

/-- Fixed registry shape for paginated responses (part_002 l.297-328). -/
def paginatedShape : TypeAnalysis :=
  .object [("data", .array (.object [("id", .primitive "number"),
             ("firstname", .primitive "string"), ("lastname", .primitive "string"),
             ("email", .primitive "string"), ("role", .primitive "string")])),
           ("meta", .object [("page", .primitive "number"), ("limit", .primitive "number"),
             ("total", .primitive "number"), ("totalPages", .primitive "number"),
             ("hasNext", .primitive "boolean"), ("hasPrev", .primitive "boolean")])]

/-- The non-recursive tail of `handleKnownType` (part_002 l.258-336): the
fixed name registry, then the paginated heuristic, then the single-field
default object. -/
def baseKnownType (typeName : String) : TypeAnalysis :=
  if typeName = "User" then userShape
  else if typeName = "CreateUserDto" then createUserDtoShape
  else if typeName = "UpdateUserDto" then updateUserDtoShape
  else if containsSub typeName "findAllPaginated" || containsSub typeName "Paginated" then
    paginatedShape
  else .object [("id", .primitive "number")]

/-- `handleKnownType` strips trailing `[]` pairs recursively
(part_002 l.250-256); working on the reversed character list makes that
recursion structural. -/
def handleKnownTypeRev : List Char → TypeAnalysis
  | ']' :: '[' :: rest => .array (handleKnownTypeRev rest)
  | l => baseKnownType (String.mk l.reverse)

/-- `handleKnownType` (part_002 l.248-337). -/
def handleKnownType (typeName : String) : TypeAnalysis :=
  handleKnownTypeRev typeName.data.reverse

mutual
/-- `analyzeTypeNode` (part_002 l.189-246). -/
def analyzeTypeNode : TypeNode → TypeAnalysis
  | .arrayType e => .array (analyzeTypeNode e)
  | .typeLiteral ms => .object (analyzeTMembers ms [])
  | .typeRef name (.cons t .nil) =>
      if name = "Array" then .array (analyzeTypeNode t) else handleKnownType name
  | .typeRef name .nil => handleKnownType name
  | .typeRef name (.cons _ (.cons _ _)) => handleKnownType name
  | .strKeyword => .primitive "string"
  | .numKeyword => .primitive "number"
  | .boolKeyword => .primitive "boolean"
  | .otherToken => .unknown
/-- The `typeNode.members.forEach` loop of the type-literal case
(part_002 l.197-212), building the `properties` record. -/
def analyzeTMembers : TMembers → List (String × TypeAnalysis) →
    List (String × TypeAnalysis)
  | .nil, acc => acc
  | .consTyped n t rest, acc => analyzeTMembers rest (recordInsert acc n (analyzeTypeNode t))
  | .consUntyped n rest, acc => analyzeTMembers rest (recordInsert acc n .unknown)
end

/-! ## Return expressions and `analyzeExpression` (part_002 l.339-415)

`Expr` models the `ts.Expression` kinds the source discriminates; object
literal properties are property assignments with identifier names,
shorthand assignments, or other properties (skipped by the source). -/

mutual
inductive Expr where
  | arrayLit (elems : EList)
  | objectLit (props : PList)
  | strLit
  | numLit
  | boolLit
  | binaryOr (left right : Expr)
  | propAccess (name : String)
  | otherExpr
inductive EList where
  | nil
  | cons (e : Expr) (rest : EList)
inductive PList where
  | nil
  | cons (p : OProp) (rest : PList)
inductive OProp where
  | assign (name : String) (init : Expr)
  | shorthand (name : String)
  | otherProp
end

mutual
/-- `analyzeExpression` (part_002 l.339-415). -/
def analyzeExpression : Expr → TypeAnalysis
  | .arrayLit (.cons e _) => .array (analyzeExpression e)
  | .arrayLit .nil => .array .unknown
  | .objectLit ps => .object (analyzeOProps ps [])
  | .strLit => .primitive "string"
  | .numLit => .primitive "number"
  | .boolLit => .primitive "boolean"
  | .binaryOr _ r => analyzeExpression r
  | .propAccess n =>
      if containsSub n "email" || containsSub n "Email" then .primitive "string"
      else if containsSub n "id" || containsSub n "Id" then .primitive "number"
      else .primitive "string"
  | .otherExpr => .unknown
/-- The `expression.properties.forEach` loop of the object-literal case
(part_002 l.352-369), building the `properties` record; a shorthand
property named exactly `id` infers number, any other shorthand infers
string (l.362-367). -/
def analyzeOProps : PList → List (String × TypeAnalysis) → List (String × TypeAnalysis)
  | .nil, acc => acc
  | .cons (.assign n e) rest, acc => analyzeOProps rest (recordInsert acc n (analyzeExpression e))
  | .cons (.shorthand n) rest, acc =>
      analyzeOProps rest
        (recordInsert acc n (if n = "id" then .primitive "number" else .primitive "string"))
  | .cons .otherProp rest, acc => analyzeOProps rest acc
end

/-! ## Method nodes, `findReturnStatements` and `extractReturnType`
(part_002 l.165-187 and l.417-426)

`SNode` models an arbitrary syntax node as traversed by
`ts.forEachChild`: a return statement (with or without an expression), a
generic node with children, or a nested function/callback node with
children (`forEachChild` descends into nested functions exactly as into
any other node; the separate constructor only records what the node is).
`findReturnStatements` pushes a return statement and does not descend
into it, and otherwise recurses over all children in order, so the
collected list is the depth-first pre-order list of outermost return
statements of the whole method node. -/

mutual
inductive SNode where
  | retExpr (e : Expr)
  | retNone
  | node (children : SList)
  | funcNode (children : SList)
inductive SList where
  | nil
  | cons (n : SNode) (rest : SList)
end

mutual
/-- `findReturnStatements` (part_002 l.417-426), returning the collected
`results` list; `some e` is a `return e;`, `none` a bare `return;`. -/
def findReturns : SNode → List (Option Expr)
  | .retExpr e => [some e]
  | .retNone => [none]
  | .node cs => findReturnsL cs
  | .funcNode cs => findReturnsL cs
/-- The `ts.forEachChild` recursion of `findReturnStatements`. -/
def findReturnsL : SList → List (Option Expr)
  | .nil => []
  | .cons n rest => findReturns n ++ findReturnsL rest
end

/-- The fallback of `extractReturnType` (part_002 l.175-186): analyze the
first collected return statement's expression; a missing expression, or
no return statement at all, yields `unknown`. -/
def fallbackReturnType (methodNode : SNode) : TypeAnalysis :=
  match findReturns methodNode with
  | some e :: _ => analyzeExpression e
  | none :: _ => .unknown
  | [] => .unknown

/-- `extractReturnType` (part_002 l.165-187): a usable explicit
annotation wins; otherwise the first-return fallback runs on the whole
method node. -/
def extractReturnType (ty : Option TypeNode) (methodNode : SNode) : TypeAnalysis :=
  match ty with
  | some t =>
      let explicitType := analyzeTypeNode t
      if explicitType.isUnknownKind then fallbackReturnType methodNode else explicitType
  | none => fallbackReturnType methodNode

/-! ## Declaration emitter (part_002 l.434-607)

Generated source text is built with string concatenation. Literal braces
and single quotes of the emitted TypeScript are written with the escapes
\x7b, \x7d and \x27. -/

/-- One analyzed method (`MethodAnalysis`, part_002 l.38-42). -/
structure MethodAnalysis where
  name : String
  returnType : TypeAnalysis
  responseClassName : String

/-- One analyzed service file (`ServiceAnalysis`, part_002 l.32-36; the
`filePath` field is file-system bookkeeping and is not modelled). -/
structure ServiceAnalysis where
  serviceName : String
  methods : List MethodAnalysis

/-- `generateResponseClassName` (part_002 l.590-592). -/
def generateResponseClassName (serviceName methodName : String) : String :=
  serviceName ++ capitalize methodName ++ "Response"

/-- `mapTypeToSwagger` (part_002 l.539-554). -/
def mapTypeToSwagger (t : String) : String :=
  if t = "string" then "string"
  else if t = "number" then "number"
  else if t = "boolean" then "boolean"
  else if t = "object" then "object"
  else if t = "array" then "array"
  else "any"

/-- `mapTypeToTypescript` (part_002 l.556-567). -/
def mapTypeToTypescript : TypeAnalysis → String
  | .primitive t => t
  | .array e => mapTypeToTypescript e ++ "[]"
  | .object _ => "object"
  | .unknown => "any"

/-- An example value as passed to `JSON.stringify` (part_002 l.569-588
produces only strings, numbers and booleans). -/
inductive ExVal where
  | s (v : String)
  | n (v : Nat)
  | b (v : Bool)

/-- `JSON.stringify` on the example values above. -/
def jsonStringify : ExVal → String
  | .s v => "\x22" ++ v ++ "\x22"
  | .n v => toString v
  | .b v => if v then "true" else "false"

/-- `generateExample` (part_002 l.569-588); `none` is `undefined`. -/
def generateExample (name : String) (ty : TypeAnalysis) : Option ExVal :=
  match ty with
  | .primitive t =>
      if t = "string" then
        some (.s (if containsSub (toLowerS name) "email" then "user@example.com"
          else if containsSub (toLowerS name) "name" then "example name"
          else if containsSub (toLowerS name) "password" then "password123"
          else if containsSub (toLowerS name) "role" then "user"
          else "example value"))
      else if t = "number" then
        some (.n (if containsSub (toLowerS name) "id" then 1 else 0))
      else if t = "boolean" then some (.b true)
      else none
  | _ => none

/-- `generateProperty` (part_002 l.519-537). -/
def generateProperty (name : String) (ty : TypeAnalysis) : String :=
  let swaggerType := mapTypeToSwagger (primitiveTypeOrAny ty)
  let exampleVal := generateExample name ty
  let decoratorProps :=
    (match exampleVal with
     | some v => ["example: " ++ jsonStringify v]
     | none => []) ++
    (if swaggerType = "any" then [] else ["type: \x27" ++ swaggerType ++ "\x27"])
  let decorator :=
    if decoratorProps.isEmpty then "@ApiProperty()"
    else "@ApiProperty(\x7b " ++ joinSep ", " decoratorProps ++ " \x7d)"
  "  " ++ decorator ++ "\n  " ++ name ++ ": " ++ mapTypeToTypescript ty ++ ";"

/-- One step of the `Object.entries(...).map(...)` loop of the object
branch of `generateResponseClass` (part_002 l.459-487): the accumulator
pairs the `nestedClasses` text built by side effect with the property
lines later joined by the blank line. -/
def responseClassEntry (responseClassName : String) (acc : String × List String)
    (entry : String × TypeAnalysis) : String × List String :=
  match entry.2 with
  | .object nestedProps =>
      let nestedClassName := responseClassName ++ capitalize entry.1
      let nestedProperties :=
        joinSep "\n\n" (nestedProps.map (fun e => generateProperty e.1 e.2))
      (acc.1 ++ "export class " ++ nestedClassName ++ " \x7b\n" ++ nestedProperties
         ++ "\n\x7d\n\n",
       acc.2 ++ ["  @ApiProperty(\x7b type: " ++ nestedClassName ++ " \x7d)\n  "
         ++ entry.1 ++ ": " ++ nestedClassName ++ ";"])
  | .array (.object elemProps) =>
      let nestedClassName := responseClassName ++ capitalize entry.1 ++ "Item"
      let nestedProperties :=
        joinSep "\n\n" (elemProps.map (fun e => generateProperty e.1 e.2))
      (acc.1 ++ "export class " ++ nestedClassName ++ " \x7b\n" ++ nestedProperties
         ++ "\n\x7d\n\n",
       acc.2 ++ ["  @ApiProperty(\x7b type: " ++ nestedClassName
         ++ ", isArray: true \x7d)\n  " ++ entry.1 ++ ": " ++ nestedClassName ++ "[];"])
  | t => (acc.1, acc.2 ++ [generateProperty entry.1 t])

/-- `generateResponseClass` (part_002 l.456-517). An `object` shape emits
a class per the entries loop; an `array` shape emits an `Item` class plus
an aliasing `const` when the element is an object, and a one-field
`value` wrapper otherwise; any other shape (`primitive`, `unknown`)
falls through to the empty `// Unknown return type` class. -/
def generateResponseClass (method : MethodAnalysis) : String :=
  match method.returnType with
  | .object props =>
      let r := props.foldl (responseClassEntry method.responseClassName) ("", [])
      r.1 ++ "export class " ++ method.responseClassName ++ " \x7b\n"
        ++ joinSep "\n\n" r.2 ++ "\n\x7d"
  | .array elem =>
      let elementClass := method.responseClassName ++ "Item"
      match elem with
      | .object elemProps =>
          "export class " ++ elementClass ++ " \x7b\n"
            ++ joinSep "\n\n" (elemProps.map (fun e => generateProperty e.1 e.2))
            ++ "\n\x7d\n\n"
            ++ "// Use [" ++ elementClass ++ "] in @ApiOkResponse for array responses\n"
            ++ "export const " ++ method.responseClassName ++ " = " ++ elementClass ++ ";"
      | e =>
          let primitiveType := mapTypeToSwagger (primitiveTypeOrAny e)
          "export class " ++ method.responseClassName
            ++ " \x7b\n  @ApiProperty(\x7b type: \x27" ++ primitiveType
            ++ "\x27 \x7d)\n  value: " ++ primitiveType ++ ";\n\x7d"
  | _ => "export class " ++ method.responseClassName ++ " \x7b\n  // Unknown return type\n\x7d"

/-- `generateResponseObject` (part_002 l.594-603): the per-unit lookup
object mapping method name to response class. -/
def generateResponseObject (analysis : ServiceAnalysis) : String :=
  let serviceName := replaceFirstS analysis.serviceName "Service" ""
  let responseObjectName := serviceName ++ "ServiceResponse"
  let methodMappings :=
    joinSep "\n" (analysis.methods.map (fun m => "  " ++ m.name ++ ": "
      ++ m.responseClassName ++ ","))
  "export const " ++ responseObjectName ++ " = \x7b\n" ++ methodMappings
    ++ "\n\x7d as const;\n\nexport type " ++ responseObjectName ++ "Type = typeof "
    ++ responseObjectName ++ ";"

/-! ## Service file analysis and the generate pass (part_002 l.64-163) -/

/-- One class member as seen by the `node.members.forEach` loop of
`analyzeServiceFile` (part_002 l.131-149): a method declaration with an
identifier name, its `private` modifier flag, its optional explicit
return-type annotation and its whole method node (the tree
`findReturnStatements` traverses). -/
structure Member where
  name : String
  isPriv : Bool
  ty : Option TypeNode
  node : SNode

/-- The body of the member loop (part_002 l.131-149): constructors and
private methods are skipped, and a member whose extracted return type is
`unknown` is not pushed onto `methods` at all. -/
def keepMethod (serviceName : String) (m : Member) : Option MethodAnalysis :=
  if m.name == "constructor" || m.isPriv then none
  else
    let returnType := extractReturnType m.ty m.node
    if returnType.isUnknownKind then none
    else some ⟨m.name, returnType, generateResponseClassName serviceName m.name⟩

/-- `analyzeServiceFile` (part_002 l.116-163), for a file whose (single)
class declaration has the given name and members; `none` models the
`null` result (no `*Service` class, or no retained methods). -/
def analyzeServiceFile (className : String) (members : List Member) :
    Option ServiceAnalysis :=
  if endsWithS className "Service" then
    let methods := members.filterMap (keepMethod className)
    if methods.isEmpty then none else some ⟨className, methods⟩
  else none

/-- `generatedCount` of `generate` (part_002 l.101-111): the number of
service analyses whose `generateResponseFile` call succeeded. -/
def successCount (outcomes : List Bool) : Nat :=
  (outcomes.filter (fun b => b)).length

/-- The observable result of one `generate()` call: its console log lines
and its resolved value. The TypeScript signature is
`async generate(): Promise<void>` (part_002 l.64), so the resolved value
is `undefined`, modelled as `Unit`. -/
structure GenerateRun where
  logs : List String
  returned : Unit

/-- `ServiceResponseGenerator.generate` (part_002 l.64-114), abstracted
over the per-unit success of `generateResponseFile` (the try/catch at
l.102-111): it counts successes into `generatedCount`, logs the count
(emoji prefixes of the log lines are omitted), and resolves with
`undefined`. `generateResponses` (src/packages/plugin/src/index.ts
l.21-27) returns this same resolved value. -/
def generateModel (outcomes : List Bool) : GenerateRun :=
  { logs := ["Generating response types from service files...",
             "Generated response files for " ++ toString (successCount outcomes)
               ++ " services"],
    returned := () }

/-! ## Endpoint scanner classifier (part_001 l.312-331) -/

namespace DecoratorGenerator

/-- The `isPaginated` test of `isArrayMethod` (part_001 l.317-320). -/
def isPaginatedName (methodName : String) : Bool :=
  ["paginated", "paged"].any (fun pat => containsSub (toLowerS methodName) (toLowerS pat))

/-- `DecoratorGenerator.isArrayMethod` (part_001 l.312-331): the
paginated patterns force `false` before the `findAll`/`getAll`/`listAll`
prefix-or-equality rule is consulted. -/
def isArrayMethod (methodName : String) : Bool :=
  if isPaginatedName methodName then false
  else
    ["findAll", "getAll", "listAll"].any (fun pat =>
      toLowerS methodName == toLowerS pat
        || startsWithS (toLowerS methodName) (toLowerS pat))

end DecoratorGenerator

/-! ## Plugin classifiers
(apply-transformations.ts l.196-199, response-transformer.ts l.351-363) -/

namespace ApplyTransformations

/-- `isArrayMethod` of apply-transformations.ts (l.196-199): substring
matching over six patterns, with no paginated exception. -/
def isArrayMethod (methodName : String) : Bool :=
  ["findAll", "getAll", "listAll", "search", "filter", "query"].any (fun pat =>
    containsSub (toLowerS methodName) (toLowerS pat))

end ApplyTransformations

namespace ResponseTransformer

/-- `isArrayMethod` of response-transformer.ts (l.351-363): substring
matching over six patterns, with no paginated exception. -/
def isArrayMethod (methodName : String) : Bool :=
  ["findAll", "getAll", "listAll", "search", "filter", "query"].any (fun pat =>
    containsSub (toLowerS methodName) (toLowerS pat))

end ResponseTransformer

/-! ## The string-based rewriter (apply-transformations.ts l.51-210)

`transformControllerFile` mixes AST queries on the parse of the original
text with regex find/replace on the evolving `transformed` string. The
parse result is passed as data (`ParsedFile`); the three concrete
regular expressions of the source are implemented over character lists:

* `new RegExp("@InferAPIResponse\\([^)]*\\)", "g")` (l.139);
* `/(import.*from '@nestjs\/swagger';)/` (l.85);
* the `getDecoratorText` pattern
  `decoratorName\(...\)[\s\S]*?methodName\s*\(` (l.202) and the
  `extractDescription` pattern `description:\s*['"]([^'"]*)['"]` (l.208).
-/

namespace ApplyTransformations

/-- A method declaration as the rewriter's AST pass sees it: its name and
its decorator names as resolved by `getDecoratorName` (l.170-179). -/
structure MethodInfo where
  name : String
  decorators : List String

/-- A class declaration with its method members. -/
structure ClassInfo where
  name : String
  methods : List MethodInfo

/-- The parse of a controller file: its top-level class declarations. -/
structure ParsedFile where
  classes : List ClassInfo

/-- The allow-list of `getHttpMethod` (l.182). -/
def httpDecorators : List String := ["Get", "Post", "Put", "Patch", "Delete"]

/-- `getHttpMethod` (l.181-194): the first decorator in the allow-list. -/
def getHttpMethod (m : MethodInfo) : Option String :=
  m.decorators.find? (fun d => httpDecorators.contains d)

/-- `extractServiceName` (l.155-168): every class ending in `Controller`
overwrites `serviceName`, so the last such class wins. -/
def extractServiceName (classNames : List String) : Option String :=
  classNames.foldl
    (fun acc cn =>
      if endsWithS cn "Controller" then
        some (replaceFirstS cn "Controller" "" ++ "Service")
      else acc)
    none

/-- The literal `@InferAPIResponse(` that starts every match of the
global marker regex. -/
def markerCallL : List Char := "@InferAPIResponse(".data

/-- Skip to just past the first `)` (the `[^)]*\)` tail of the marker
regex); `none` when no `)` remains, in which case the regex cannot match
here or anywhere later. -/
def afterClose : List Char → Option (List Char)
  | [] => none
  | c :: cs => if c == ')' then some cs else afterClose cs

/-- Consume through the first `)` returning the consumed span and the
rest. -/
def spanToClose : List Char → Option (List Char × List Char)
  | [] => none
  | c :: cs =>
      if c == ')' then some ([c], cs)
      else
        match spanToClose cs with
        | some p => some (c :: p.1, p.2)
        | none => none

/-- `transformed.replace(/@InferAPIResponse\([^)]*\)/g, newDecorator)`
(l.138-141): every occurrence of the marker call is replaced. Recursion
is bounded by a character-count fuel; each step consumes at least one
character, so the initial fuel `l.length` never runs out. -/
def replaceMarkerAllF (repl : List Char) : Nat → List Char → List Char
  | 0, l => l
  | _ + 1, [] => []
  | fuel + 1, c :: rest =>
      if isPrefixOfL markerCallL (c :: rest) then
        match afterClose (List.drop markerCallL.length (c :: rest)) with
        | some after => repl ++ replaceMarkerAllF repl fuel after
        | none => c :: rest
      else c :: replaceMarkerAllF repl fuel rest

/-- String-level wrapper for the global marker replacement. -/
def replaceMarkerAll (repl s : String) : String :=
  String.mk (replaceMarkerAllF repl.data s.data.length s.data)

/-- JavaScript `\s` on the whitespace the source files contain. -/
def wsChar (c : Char) : Bool :=
  c == ' ' || c == '\t' || c == '\n' || c == '\r'

/-- The literal `import` opening the import-insertion regex. -/
def importKw : List Char := "import".data

/-- The literal ending the import-insertion regex. -/
def swaggerLitL : List Char := "from \x27@nestjs/swagger\x27;".data

/-- End position (relative, exclusive) of the last occurrence of `lit` in
`l`; the greedy `.*` of the import regex makes the rightmost occurrence
on the line the match end. -/
def lastLitEndAux (lit : List Char) : List Char → Nat → Option Nat
  | [], _ => none
  | l@(_ :: rest), i =>
      match lastLitEndAux lit rest (i + 1) with
      | some e => some e
      | none => if isPrefixOfL lit l then some (i + lit.length) else none

/-- Try to match `import.*from '@nestjs\/swagger';` at the head of `l`
(`.*` does not cross a newline); returns the match end. -/
def matchImportEnd (l : List Char) : Option Nat :=
  if isPrefixOfL importKw l then
    match lastLitEndAux swaggerLitL (l.takeWhile (fun c => c != '\n')) 0 with
    | some e => if importKw.length + swaggerLitL.length ≤ e then some e else none
    | none => none
  else none

/-- Leftmost match of the import regex over the whole text; returns the
absolute end position of the match. -/
def findImportMatchAux : List Char → Nat → Option Nat
  | [], _ => none
  | l@(_ :: rest), i =>
      match matchImportEnd l with
      | some e => some (i + e)
      | none => findImportMatchAux rest (i + 1)

/-- `transformed.replace(/(import.*from '@nestjs\/swagger';)/, "$1\n" +
importStatement)` (l.84-87): splice the import statement right after the
matched import line; no match leaves the text unchanged. -/
def addImportAfterSwagger (text stmt : String) : String :=
  match findImportMatchAux text.data 0 with
  | some e => String.mk (text.data.take e ++ ('\n' :: stmt.data) ++ text.data.drop e)
  | none => text

/-- Match `methodName\s*\(` at the head of `l`, returning the consumed
span. -/
def matchNameParen (mName l : List Char) : Option (List Char) :=
  if isPrefixOfL mName l then
    let rest := List.drop mName.length l
    let ws := rest.takeWhile wsChar
    match List.drop ws.length rest with
    | '(' :: _ => some (mName ++ ws ++ ['('])
    | _ => none
  else none

/-- The lazy `[\s\S]*?` of the `getDecoratorText` regex: the earliest
completion by `methodName\s*\(`; returns the skipped span and the
name-paren span. -/
def lazyFindNP (mName : List Char) : List Char → Option (List Char × List Char)
  | [] => none
  | l@(c :: rest) =>
      match matchNameParen mName l with
      | some consumed => some ([], consumed)
      | none =>
          match lazyFindNP mName rest with
          | some (mid, consumed) => some (c :: mid, consumed)
          | none => none

/-- Match the whole `getDecoratorText` regex at the head of `l`. -/
def matchDecoratorAt (mName l : List Char) : Option (List Char) :=
  if isPrefixOfL markerCallL l then
    match spanToClose (List.drop markerCallL.length l) with
    | some (inside, after) =>
        match lazyFindNP mName after with
        | some (mid, np) => some (markerCallL ++ inside ++ mid ++ np)
        | none => none
    | none => none
  else none

/-- Leftmost match of the `getDecoratorText` regex; an unmatched regex
yields the empty string (l.204). -/
def getDecoratorTextAux (mName : List Char) : List Char → List Char
  | [] => []
  | l@(_ :: rest) =>
      match matchDecoratorAt mName l with
      | some m => m
      | none => getDecoratorTextAux mName rest

/-- `getDecoratorText` (l.201-205), with the decorator name fixed to the
only value the source passes, `@InferAPIResponse`. -/
def getDecoratorText (text mName : String) : String :=
  String.mk (getDecoratorTextAux mName.data text.data)

/-- The literal opening the `extractDescription` regex. -/
def descKeyL : List Char := "description:".data

/-- A quote character of the `['"]` classes. -/
def quoteCh (c : Char) : Bool := c == '\x27' || c == '\x22'

/-- Match `description:\s*['"]([^'"]*)['"]` at the head of `l`, returning
the capture. -/
def matchDescAt (l : List Char) : Option (List Char) :=
  if isPrefixOfL descKeyL l then
    let rest := List.drop descKeyL.length l
    let ws := rest.takeWhile wsChar
    match List.drop ws.length rest with
    | q :: rest2 =>
        if quoteCh q then
          let cap := rest2.takeWhile (fun c => !(quoteCh c))
          match List.drop cap.length rest2 with
          | q2 :: _ => if quoteCh q2 then some cap else none
          | [] => none
        else none
    | [] => none
  else none

/-- Leftmost match of the description regex. -/
def extractDescriptionAux : List Char → Option (List Char)
  | [] => none
  | l@(_ :: rest) =>
      match matchDescAt l with
      | some c => some c
      | none => extractDescriptionAux rest

/-- `extractDescription` (l.207-210); `none` is `null`. -/
def extractDescription (t : String) : Option String :=
  (extractDescriptionAux t.data).map String.mk

/-- The body of the member loop of `transformControllerFile`
(l.94-144): for a method carrying the marker, build the replacement
decorator from that method's verb, array-ness and extracted description,
then globally replace every marker occurrence in the current text. -/
def processMethod (responseObjectName : String) (t : String) (m : MethodInfo) : String :=
  if m.decorators.contains "InferAPIResponse" then
    let httpMethod := getHttpMethod m
    let isArrayResponse := isArrayMethod m.name
    let decoratorName := if httpMethod == some "Post" then "ApiCreatedResponse"
      else "ApiOkResponse"
    let typeExpression := responseObjectName ++ "." ++ m.name
    let description := extractDescription (getDecoratorText t m.name)
    let decoratorOptions := "\x7b type: " ++ typeExpression
      ++ (if isArrayResponse then ", isArray: true" else "")
      ++ (match description with
          | some d => ", description: \x27" ++ d ++ "\x27"
          | none => "")
      ++ " \x7d"
    replaceMarkerAll ("@" ++ decoratorName ++ "(" ++ decoratorOptions ++ ")") t
  else t

/-- `transformControllerFile` (l.51-153): early return when the text does
not contain the marker substring; early return when no `*Controller`
class is found; otherwise insert the response-object import after the
swagger import if the response-object name is absent from the text, then
run the member loop. `responseImportPath` stands for the
`path.relative(...)` computation of l.73-79 (file-system infrastructure).
The returned string is the final content of the file (l.150-152 writes
it back only when it changed). -/
def transformControllerFile (pf : ParsedFile) (responseImportPath : String)
    (text : String) : String :=
  if containsSub text "@InferAPIResponse" then
    match extractServiceName (pf.classes.map (fun c => c.name)) with
    | none => text
    | some serviceName =>
        let responseObjectName := replaceFirstS serviceName "Service" "" ++ "ServiceResponse"
        let importStmt := "import \x7b " ++ responseObjectName ++ " \x7d from \x27"
          ++ responseImportPath ++ "\x27;\n"
        let t1 := if containsSub text responseObjectName then text
          else addImportAfterSwagger text importStmt
        ((pf.classes.map (fun c => c.methods)).flatten).foldl
          (processMethod responseObjectName) t1
  else text

end ApplyTransformations

/-- The annotation-usability test of `extractReturnType`
(part_002 l.167-173): an explicit annotation is used exactly when it is
present and its analysis is not `unknown`. -/
def usableAnn : Option TypeNode → Bool
  | none => false
  | some t => !(analyzeTypeNode t).isUnknownKind

set_option maxRecDepth 8192

/-! ## Concrete inputs used by the claim theorems -/

/-- A retained member: `findAll(): User[]` (explicit array annotation). -/
def c2findAllMember : Member :=
  ⟨"findAll", false, some (.arrayType (.typeRef "User" .nil)), .node .nil⟩

/-- A member with no annotation and no return statement: its extracted
return type is `unknown`. -/
def c2removeMember : Member := ⟨"remove", false, none, .node .nil⟩

/-- A member whose shape is a top-level primitive. -/
def c1method : MethodAnalysis :=
  ⟨"getName", .primitive "string", "UsersServiceGetNameResponse"⟩

/-- A method node whose first depth-first return statement sits inside a
nested function node, with the method's own return statement after it. -/
def c10node : SNode :=
  .node (.cons (.node (.cons (.funcNode (.cons (.retExpr .strLit) .nil)) .nil))
    (.cons (.retExpr .numLit) .nil))

/-- Parse of a controller file with two marked methods differing in HTTP
verb and array-ness. -/
def c4parse : ApplyTransformations.ParsedFile :=
  ⟨[⟨"UsersController",
     [⟨"findAll", ["Get", "InferAPIResponse"]⟩,
      ⟨"create", ["Post", "InferAPIResponse"]⟩]⟩]⟩

/-- The relative import path the rewriter would compute for the file. -/
def c4path : String := "./generated/responses/usersservice.response"

/-- Controller text with a marker on each of the two methods. -/
def c4text : String :=
  "import \x7b ApiOkResponse \x7d from \x27@nestjs/swagger\x27;\nclass UsersController \x7b\n  @Get()\n  @InferAPIResponse()\n  findAll() \x7b\x7d\n\n  @Post()\n  @InferAPIResponse()\n  create() \x7b\x7d\n\x7d\n"

/-- Parse of a controller file whose only marker is class-level: the
member loop never sees it. -/
def c8parse : ApplyTransformations.ParsedFile :=
  ⟨[⟨"UsersController", [⟨"findAll", ["Get"]⟩]⟩]⟩

/-- The relative import path the rewriter would compute for the file. -/
def c8path : String := "./generated/responses/usersservice.response"

/-- Controller text with a class-level marker decorator only. -/
def c8text : String :=
  "import \x7b ApiOkResponse \x7d from \x27@nestjs/swagger\x27;\n\n@InferAPIResponse()\nclass UsersController \x7b\n  @Get()\n  findAll() \x7b\x7d\n\x7d\n"

/-! ## Claim theorems -/

/-- C1 counterexample: an analyzable member whose inferred Shape is a
top-level `Primitive(string)` is emitted as the empty
`// Unknown return type` class, with no `value` field at all — not as a
one-field wrapper named `value`. -/
theorem C1_counterexample :
    generateResponseClass c1method =
      "export class UsersServiceGetNameResponse \x7b\n  // Unknown return type\n\x7d"
    ∧ containsSub (generateResponseClass c1method) "value" = false := by
  decide

/-- C1 (amended): the one-field `value` wrapper (carrying the mapped
primitive kind) is emitted for a top-level `Array` of a non-object
element; a top-level `Primitive` or `Unknown` shape is emitted as an
empty declaration containing only the `// Unknown return type` comment. -/
theorem C1_value_wrapper_amended :
    ∀ (nm cn p : String),
      generateResponseClass ⟨nm, .array (.primitive p), cn⟩ =
        "export class " ++ cn ++ " \x7b\n  @ApiProperty(\x7b type: \x27"
          ++ mapTypeToSwagger p ++ "\x27 \x7d)\n  value: " ++ mapTypeToSwagger p
          ++ ";\n\x7d"
      ∧ generateResponseClass ⟨nm, .primitive p, cn⟩ =
        "export class " ++ cn ++ " \x7b\n  // Unknown return type\n\x7d"
      ∧ generateResponseClass ⟨nm, .unknown, cn⟩ =
        "export class " ++ cn ++ " \x7b\n  // Unknown return type\n\x7d" :=
  fun _ _ _ => ⟨rfl, rfl, rfl⟩

/-- C2 counterexample: `remove` is a non-constructor, non-private method
whose analysis yields the `Unknown` shape; `analyzeServiceFile` drops it
from the retained methods, so it gets no declaration and no entry in the
per-unit lookup object, and a unit whose only such member is unknown
produces no output at all. -/
theorem C2_counterexample :
    (analyzeServiceFile "UsersService" [c2findAllMember, c2removeMember]).map
        (fun a => a.methods.map (fun m => m.name)) = some ["findAll"]
    ∧ (analyzeServiceFile "UsersService" [c2findAllMember, c2removeMember]).map
        (fun a => containsSub (generateResponseObject a) "remove") = some false
    ∧ (analyzeServiceFile "EmptyService" [c2removeMember]).isNone = true := by
  decide

/-- C2 (amended): a member whose extracted return type is `Unknown` is
skipped by the member loop (no declaration, no lookup entry); the
retained methods are exactly the non-constructor, non-private members
with a non-`Unknown` shape, and a unit retaining no methods yields no
analysis (hence no output file). -/
theorem C2_unknown_members_skipped :
    ∀ (cn : String) (members : List Member),
      endsWithS cn "Service" = true →
      (analyzeServiceFile cn members =
         if (members.filterMap (keepMethod cn)).isEmpty then none
         else some ⟨cn, members.filterMap (keepMethod cn)⟩)
      ∧ ∀ m : Member, (m.name == "constructor") = false → m.isPriv = false →
          (extractReturnType m.ty m.node).isUnknownKind = true →
          keepMethod cn m = none := by
  intro cn members h
  refine ⟨?_, ?_⟩
  · simp [analyzeServiceFile, h]
  · intro m h1 h2 h3
    simp [keepMethod, h1, h2, h3]

/-- C2 witness: the amended statement applied to the concrete unit. -/
theorem C2_witness :
    endsWithS "UsersService" "Service" = true
    ∧ (analyzeServiceFile "UsersService" [c2findAllMember, c2removeMember]).map
        (fun a => a.methods.map (fun m => m.name)) = some ["findAll"] := by
  refine ⟨by decide, ?_⟩
  rw [(C2_unknown_members_skipped "UsersService" [c2findAllMember, c2removeMember]
    (by decide)).1]
  decide

/-- C3 counterexample: on `findAllPaginated` the Endpoint Scanner's
classifier answers non-array while both plugin classifiers answer array,
so the three are not extensionally equal and the paginated precedence is
absent from the plugin variants. -/
theorem C3_counterexample :
    DecoratorGenerator.isArrayMethod "findAllPaginated" = false
    ∧ ApplyTransformations.isArrayMethod "findAllPaginated" = true
    ∧ ResponseTransformer.isArrayMethod "findAllPaginated" = true := by
  decide

/-- C3 (amended): the string-based and the AST-based plugin classifiers
are extensionally equal to each other (both match the six substring
patterns with no paginated exception); they are not equal to the
Endpoint Scanner's classifier. -/
theorem C3_plugin_variants_agree :
    ∀ (methodName : String),
      ApplyTransformations.isArrayMethod methodName =
        ResponseTransformer.isArrayMethod methodName :=
  fun _ => rfl

/-- C4: on a file with two marked members differing in verb and
array-ness, the string-based rewriter's global regex replacement stamps
the first member's synthesized decorator onto both marker sites: the
output contains the `findAll` ok-decorator twice and never the
`create` created-decorator. -/
theorem C4_global_replace_bug :
    countSub (ApplyTransformations.transformControllerFile c4parse c4path c4text)
        "@ApiOkResponse(\x7b type: UsersServiceResponse.findAll, isArray: true \x7d)" = 2
    ∧ containsSub (ApplyTransformations.transformControllerFile c4parse c4path c4text)
        "@ApiCreatedResponse" = false
    ∧ containsSub (ApplyTransformations.transformControllerFile c4parse c4path c4text)
        "UsersServiceResponse.create" = false
    ∧ containsSub c4text "@ApiOkResponse(" = false := by
  decide

/-- C5: a method with an explicit array return-type annotation analyzes
to `Array` of the recursive analysis of the element type node, whatever
the method body is. -/
theorem C5_explicit_array_annotation :
    ∀ (elem : TypeNode) (methodNode : SNode),
      extractReturnType (some (TypeNode.arrayType elem)) methodNode =
        TypeAnalysis.array (analyzeTypeNode elem) :=
  fun _ _ => rfl

/-- C6: a shorthand property named exactly `id` is inferred as
`Primitive(number)` and any other shorthand as `Primitive(string)`, both
as a full object-literal analysis and as the single property step in an
arbitrary context. -/
theorem C6_shorthand_inference :
    (∀ (n : String),
       analyzeExpression (.objectLit (.cons (.shorthand n) .nil)) =
         .object [(n, if n = "id" then .primitive "number" else .primitive "string")])
    ∧ (∀ (n : String) (acc : List (String × TypeAnalysis)) (rest : PList),
       analyzeOProps (.cons (.shorthand n) rest) acc =
         analyzeOProps rest
           (recordInsert acc n
             (if n = "id" then .primitive "number" else .primitive "string"))) :=
  ⟨fun _ => rfl, fun _ _ _ => rfl⟩

/-- C7: a handler name containing `paginated` or `paged`
(case-insensitively) is classified non-array by the Endpoint Scanner's
classifier, regardless of the `findAll`/`getAll`/`listAll` rule. -/
theorem C7_paginated_precedence :
    ∀ (n : String),
      containsSub (toLowerS n) "paginated" = true
        ∨ containsSub (toLowerS n) "paged" = true →
      DecoratorGenerator.isArrayMethod n = false := by
  intro n h
  have e1 : toLowerS "paginated" = "paginated" := by decide
  have e2 : toLowerS "paged" = "paged" := by decide
  have hp : DecoratorGenerator.isPaginatedName n = true := by
    simp [DecoratorGenerator.isPaginatedName, e1, e2]
    rcases h with h | h
    · exact Or.inl h
    · exact Or.inr h
  simp [DecoratorGenerator.isArrayMethod, hp]

/-- C7 witness: `findAllPaginated` contains `paginated` and is classified
non-array even though it starts with `findAll`. -/
theorem C7_witness :
    containsSub (toLowerS "findAllPaginated") "paginated" = true
    ∧ startsWithS (toLowerS "findAllPaginated") "findall" = true
    ∧ DecoratorGenerator.isArrayMethod "findAllPaginated" = false :=
  ⟨by decide, by decide, C7_paginated_precedence "findAllPaginated" (Or.inl (by decide))⟩

/-- C8 counterexample: a file whose marker decorator is class-level is
rewritten (the response-object import is inserted), yet the marker
decorator is still present after the first rewrite; re-running still
produces no further change, but not for the claimed reason. -/
theorem C8_counterexample :
    containsSub (ApplyTransformations.transformControllerFile c8parse c8path c8text)
        "@InferAPIResponse" = true
    ∧ ApplyTransformations.transformControllerFile c8parse c8path c8text ≠ c8text
    ∧ ApplyTransformations.transformControllerFile c8parse c8path
        (ApplyTransformations.transformControllerFile c8parse c8path c8text)
      = ApplyTransformations.transformControllerFile c8parse c8path c8text := by
  decide

/-- C8 (amended): the rewrite is a textual no-op on any file whose text
does not contain the marker substring (the early return); after a first
rewrite that replaced every parenthesized method-level marker no marker
substring remains, so re-running is a no-op — but a class-level marker
survives the first rewrite, and re-running is then a no-op only because
the inserted import is already present. -/
theorem C8_noop_without_marker :
    ∀ (pf : ApplyTransformations.ParsedFile) (importPath text : String),
      containsSub text "@InferAPIResponse" = false →
      ApplyTransformations.transformControllerFile pf importPath text = text := by
  intro pf ip text h
  simp [ApplyTransformations.transformControllerFile, h]

/-- C8 witness: the no-op theorem applied to a marker-free file. -/
theorem C8_witness :
    containsSub "class Foo \x7b\x7d" "@InferAPIResponse" = false
    ∧ ApplyTransformations.transformControllerFile ⟨[]⟩ "" "class Foo \x7b\x7d"
      = "class Foo \x7b\x7d" :=
  ⟨by decide, C8_noop_without_marker ⟨[]⟩ "" "class Foo \x7b\x7d" (by decide)⟩

/-- C9 counterexample: runs with different success counts resolve with
the same value, so the resolved value of `generate` cannot be the count
of units processed and a caller cannot observe partial failure from it. -/
theorem C9_counterexample :
    (generateModel [false]).returned = (generateModel [true]).returned
    ∧ successCount [false] ≠ successCount [true] :=
  ⟨rfl, by decide⟩

/-- C9 (amended): `generate` counts the units whose generation succeeded
and logs that count in its final console message, but resolves with
`undefined` (`Unit`); the count is observable only in the logs. -/
theorem C9_logs_count_returns_unit :
    ∀ (outcomes : List Bool),
      (generateModel outcomes).returned = ()
      ∧ (generateModel outcomes).logs =
        ["Generating response types from service files...",
         "Generated response files for " ++ toString (successCount outcomes)
           ++ " services"] :=
  fun _ => ⟨rfl, rfl⟩

/-- C10: with no usable explicit annotation, the analysis result is the
analysis of the expression of the first return statement in the
depth-first traversal of the whole method node, and every later return
statement is ignored (the result does not depend on `rest`). -/
theorem C10_first_return_dfs :
    ∀ (ann : Option TypeNode) (methodNode : SNode) (e : Expr)
      (rest : List (Option Expr)),
      usableAnn ann = false →
      findReturns methodNode = some e :: rest →
      extractReturnType ann methodNode = analyzeExpression e := by
  intro ann node e rest h1 h2
  cases ann with
  | none => simp [extractReturnType, fallbackReturnType, h2]
  | some t =>
      have ht : (analyzeTypeNode t).isUnknownKind = true := by
        simpa [usableAnn] using h1
      simp [extractReturnType, fallbackReturnType, ht, h2]

/-- C10 witness: the first depth-first return of `c10node` belongs to a
nested function node and returns a string literal; the method's own
later numeric return is ignored. -/
theorem C10_witness :
    usableAnn none = false
    ∧ findReturns c10node = [some Expr.strLit, some Expr.numLit]
    ∧ extractReturnType none c10node = TypeAnalysis.primitive "string" :=
  ⟨rfl, rfl,
    C10_first_return_dfs none c10node Expr.strLit [some Expr.numLit] rfl rfl⟩
